import Mathlib

/-!
Verification development for the npm-fast-install pipeline (src/index.js).

The source is a callback-driven installer: it loads a dependency list,
backs up an existing node_modules directory, initializes a cache
directory, runs a bounded-concurrency fetch stage per dependency
(fast-path cache check, version resolution through the npm registry,
cache re-checks, a move-or-copy publish into the cache), then a publish
stage copying every recorded cache entry into node_modules, and a
cleanup stage removing scratch directories.

The shallow embedding below mirrors that control flow as pure Lean
functions.  Every filesystem probe, registry answer and subprocess
outcome that the JavaScript obtains from its environment is passed in
explicitly as an oracle value (fields of MatEnv, DepEnv, PubEnv,
CleanEnv, Env), so each run of the model corresponds to one concrete
interleaving of the real program with its environment.  Callbacks that
may never fire are modelled with Option: a result of none means the
callback was never invoked, so the enclosing promise is never settled.
-/

deriving instance DecidableEq for Except

namespace NpmFastInstall

/-- A semantic version, the fragment of semver the pipeline exercises. -/
structure Version where
  major : Nat
  minor : Nat
  patch : Nat
deriving DecidableEq, Repr

/-- Order on versions (semver precedence for plain x.y.z versions). -/
def vlt (a b : Version) : Bool :=
  decide (a.major < b.major ∨ (a.major = b.major ∧
    (a.minor < b.minor ∨ (a.minor = b.minor ∧ a.patch < b.patch))))

/-- Reflexive order on versions. -/
def vle (a b : Version) : Bool :=
  decide (a.major < b.major ∨ (a.major = b.major ∧
    (a.minor < b.minor ∨ (a.minor = b.minor ∧ a.patch ≤ b.patch))))

/-- The version-range language the pipeline feeds to semver: an exact
version, the wildcard, the latest sentinel, or a single comparator. -/
inductive Range where
  | exact (v : Version)
  | wildcard
  | latestTag
  | gt (v : Version)
  | ge (v : Version)
  | lt (v : Version)
  | le (v : Version)
deriving DecidableEq, Repr

/-- semver.valid: a range is a syntactically valid exact version only in
the exact case; returns that version. -/
def exactVer : Range → Option Version
  | .exact v => some v
  | _ => none

/-- semver comparator satisfaction for a single range atom. -/
def satisfies : Range → Version → Bool
  | .exact w, v => decide (v = w)
  | .wildcard, _ => true
  | .latestTag, _ => false
  | .gt w, v => vlt w v
  | .ge w, v => vle w v
  | .lt w, v => vlt v w
  | .le w, v => vle v w

/-- Registry answer for one package: latest version plus the full list
of published versions (npm.commands.view result). -/
structure Info where
  version : Version
  versions : List Version
deriving DecidableEq, Repr

/-- Maximum of a list of versions under vle. -/
def listMax : List Version → Option Version
  | [] => none
  | v :: vs =>
    match listMax vs with
    | none => some v
    | some w => some (if vle w v then v else w)

/-- semver.maxSatisfying: highest version in the list satisfying the
predicate, none when no version does. -/
def maxSatisfying (vs : List Version) (p : Version → Bool) : Option Version :=
  listMax (vs.filter p)

/-- Version selection from src/index.js lines 176-177: the wildcard and
latest sentinel resolve to the registry latest; any other range selects
the maximum published version satisfying the range and bounded by the
latest (the source appends a second comparator to the range string);
when nothing satisfies, fall back to the latest. -/
def resolveVer (r : Range) (info : Info) : Version :=
  if r = .wildcard ∨ r = .latestTag then info.version
  else
    match maxSatisfying info.versions (fun v => satisfies r v && vle v info.version) with
    | some v => v
    | none => info.version

/-- path.join specialised to two segments, as the source uses it. -/
def pjoin (a b : String) : String := a ++ "/" ++ b

/-- Rendering of a version as the path segment the source builds. -/
def verStr (v : Version) : String :=
  toString v.major ++ "." ++ toString v.minor ++ "." ++ toString v.patch

/-- Ambient run context: cache root, destination node_modules dir,
process architecture and modules ABI tag. -/
structure Ctx where
  cacheDir : String
  destDir : String
  arch : String
  modulesAPI : String
deriving DecidableEq, Repr

/-- Cache key path, src/index.js lines 165 and 178:
cacheDir/name/version/arch/modulesAPI. -/
def keyPath (c : Ctx) (name verS : String) : String :=
  pjoin (pjoin (pjoin (pjoin c.cacheDir name) verS) c.arch) c.modulesAPI

/-- Embedding of copyDir, src/index.js lines 309-322.  srcExists and
dstExists stand for the two fs.existsSync probes and rsyncRes for the
outcome of the rsync subprocess (ok carries the command string passed to
the callback).  The result is the value delivered to the callback; none
means the callback is never invoked (the source falls through both
branches and returns without calling cb). -/
def copyDir (srcExists dstExists : Bool) (rsyncRes : Except String String)
    (src : String) : Option (Except String String) :=
  if srcExists then
    some rsyncRes
  else if !dstExists then
    some (.error ("Source file not found: \"" ++ src ++ "\""))
  else
    none

/-- Environment oracle for one cache-publish attempt (src/index.js lines
212-232): outcome of fs.mkdirs, outcome of fs.rename, the existence
probes seen by the fallback copyDir, and the rsync outcome. -/
structure MatEnv where
  mkdirsErr : Option String
  renameErr : Option String
  srcExistsAtCopy : Bool
  dstExistsAtCopy : Bool
  rsyncRes : Except String String
deriving DecidableEq, Repr

/-- Observable outcome of one cache-publish attempt.  res is the value
given to the task callback (none when it never fires); pushed records
whether the cache path was appended to sourceModules; srcRemains models
that a successful fs.rename removes the source directory while the copy
fallback leaves it in place. -/
structure MatOut where
  res : Option (Except String String)
  pushed : Bool
  renameAttempted : Bool
  copyAttempted : Bool
  srcRemains : Bool
deriving DecidableEq, Repr

/-- Embedding of the two-phase cache materialization, src/index.js lines
212-232: mkdirs the cache target, try fs.rename first, and only on
rename failure fall back to copyDir; the rename success path and the
successful copy path push the cache dir onto sourceModules. -/
def materialize (src dst : String) (m : MatEnv) : MatOut :=
  match m.mkdirsErr with
  | some e => ⟨some (.error e), false, false, false, true⟩
  | none =>
    match m.renameErr with
    | none =>
      ⟨some (.ok ("moved node_modules to ->" ++ dst)), true, true, false, false⟩
    | some _ =>
      match copyDir m.srcExistsAtCopy m.dstExistsAtCopy m.rsyncRes src with
      | none => ⟨none, false, true, true, true⟩
      | some (.ok cmd) => ⟨some (.ok cmd), true, true, true, true⟩
      | some (.error e) => ⟨some (.error e), false, true, true, true⟩

/-- One declared dependency: name and version range. -/
structure Dep where
  name : String
  ver : Range
deriving DecidableEq, Repr

/-- Entry written into results.modules, src/index.js lines 181-185. -/
structure ModuleEntry where
  version : Version
  path : String
  info : Info
deriving DecidableEq, Repr

/-- Environment oracle for one fetch-stage task: the fast-path cache
probe (line 166), the npm view outcome (line 172), the second cache
probe (line 188), the scratch dir name handed out by tmp.dirSync, the
npm install outcome (line 200), the post-fetch defensive probe (line
204) and the publish oracles. -/
structure DepEnv where
  fastHit : Bool
  viewRes : Except String Info
  hit2 : Bool
  tmpDir : String
  installErr : Option String
  hit3 : Bool
  mat : MatEnv
deriving DecidableEq, Repr

/-- Observable outcome of one fetch-stage task: the callback value (none
when the callback never fires), the paths pushed onto sourceModules and
cleanUpDirs, the results.modules write, and how many registry view and
install commands were issued. -/
structure DepOut where
  res : Option (Except String String)
  sources : List String
  cleanup : List String
  modEntry : Option (String × ModuleEntry)
  viewCalls : Nat
  installCalls : Nat
deriving DecidableEq, Repr

/-- The resolver-query path of a fetch-stage task, src/index.js lines
172-234: npm view, version selection, results.modules write, second
cache check, scratch allocation, npm install, post-fetch defensive
check, and the two-phase publish into the cache. -/
def processDepView (ctx : Ctx) (dep : Dep) (e : DepEnv) : DepOut :=
  match e.viewRes with
  | .error err => ⟨some (.error err), [], [], none, 1, 0⟩
  | .ok info =>
    let ver := resolveVer dep.ver info
    let cacheModuleDir := keyPath ctx dep.name (verStr ver)
    let dest := pjoin ctx.destDir dep.name
    let entry := some (dep.name, (⟨ver, dest, info⟩ : ModuleEntry))
    if e.hit2 then
      ⟨some (.ok ("cacheModuleDir already there (2) -> " ++ cacheModuleDir)),
        [cacheModuleDir], [], entry, 1, 0⟩
    else
      match e.installErr with
      | some err => ⟨some (.error err), [], [e.tmpDir], entry, 1, 1⟩
      | none =>
        if e.hit3 then
          ⟨some (.ok ("cacheModuleDir already there (3) ?? -> " ++ cacheModuleDir)),
            [], [e.tmpDir], entry, 1, 1⟩
        else
          let mo := materialize (pjoin e.tmpDir "node_modules") cacheModuleDir e.mat
          ⟨mo.res, if mo.pushed then [cacheModuleDir] else [], [e.tmpDir], entry, 1, 1⟩

/-- One fetch-stage task, src/index.js lines 155-234: the exact-version
fast path first (lines 164-170), otherwise the resolver-query path. -/
def processDep (ctx : Ctx) (dep : Dep) (e : DepEnv) : DepOut :=
  match exactVer dep.ver with
  | some v =>
    if e.fastHit then
      let dirp := keyPath ctx dep.name (verStr v)
      ⟨some (.ok ("cacheModuleDir already there (1) -> " ++ dirp)), [dirp], [], none, 0, 0⟩
    else processDepView ctx dep e
  | none => processDepView ctx dep e

/-- True when the task takes the exact-version fast path. -/
def fastPathTaken (dep : Dep) (e : DepEnv) : Bool :=
  (exactVer dep.ver).isSome && e.fastHit

/-- True when the task runs the post-fetch defensive re-check and finds
the cache entry already populated (the path of src/index.js lines
204-207). -/
def case3Path (dep : Dep) (e : DepEnv) : Bool :=
  !fastPathTaken dep e &&
    (match e.viewRes with | .ok _ => true | .error _ => false) &&
    !e.hit2 && e.installErr.isNone && e.hit3

/-- Tiny filesystem model used for the synchronous prelude of install: a
list of (path, content) pairs; the first entry for a path wins. -/
abbrev FS := List (String × Nat)

/-- fs.existsSync / directory lookup with content. -/
def fsLookup : FS → String → Option Nat
  | [], _ => none
  | (k, c) :: fs, p => if k = p then some c else fsLookup fs p

/-- fs.existsSync as a Boolean. -/
def fsExists (fs : FS) (p : String) : Bool := (fsLookup fs p).isSome

/-- fs.mkdirsSync: create a fresh empty directory (content 0). -/
def fsMkdirs (fs : FS) (p : String) : FS := (p, 0) :: fs

/-- Remove every entry at a path (the source side of a rename). -/
def fsErase : FS → String → FS
  | [], _ => []
  | (k, c) :: fs, p => if k = p then fsErase fs p else (k, c) :: fsErase fs p

/-- fs.renameSync: the destination now holds the content that was at the
source, and the source path is gone. -/
def fsRename (fs : FS) (a b : String) : FS :=
  (b, (fsLookup fs a).getD 0) :: fsErase fs a

/-- Caller options of install (src/index.js lines 30-44): working
directory, cache root, an optional explicit dependency map, and the
production and keep flags. -/
structure Opts where
  dir : String
  cacheDir : String
  dependencies : Option (List Dep)
  production : Bool
  keep : Bool
deriving DecidableEq, Repr

/-- A loaded package.json: the three dependency groups the source reads. -/
structure PkgJson where
  dependencies : List Dep
  devDependencies : List Dep
  peerDependencies : List Dep
deriving DecidableEq, Repr

/-- Oracle for one publish-stage copy (src/index.js lines 246-255): the
existence probes and rsync outcome seen by that copyDir call. -/
structure PubEnv where
  srcExists : Bool
  dstExists : Bool
  rsyncRes : Except String String
deriving DecidableEq, Repr

/-- Oracle for one cleanup-stage task (src/index.js lines 267-284). -/
structure CleanEnv where
  stillExists : Bool
  removeErr : Option String
deriving DecidableEq, Repr

/-- Whole-run environment: the directory probe for opts.dir, the loaded
package.json (none when the file is absent), the process platform
strings, the timestamp used for the backup name, the initial filesystem
fragment seen by the prelude, the npm.load outcome, and per-task oracles
for the three stages (indexed by task position). -/
structure Env where
  dirExists : Bool
  pkgJson : Option PkgJson
  nodeVersion : String
  arch : String
  modulesAPI : String
  now : Nat
  fs0 : FS
  npmLoadErr : Option String
  depEnv : Nat → DepEnv
  pubEnv : Nat → PubEnv
  cleanEnv : Nat → CleanEnv

/-- Dependency-list computation, src/index.js lines 69-102: an explicit
opts.dependencies map wins; otherwise package.json is required and the
dev and peer groups are appended unless opts.production. -/
def depListOf (opts : Opts) (env : Env) : Except String (List Dep) :=
  match opts.dependencies with
  | some l => .ok l
  | none =>
    match env.pkgJson with
    | none => .error "No package.json found"
    | some pj =>
      .ok (pj.dependencies ++
        (if !opts.production then pj.devDependencies ++ pj.peerDependencies else []))

/-- The value fulfilled on success, src/index.js lines 104-109: platform
info plus the modules mapping (recorded as the list of writes in task
order; a later write for the same name wins). -/
structure RunResult where
  node : String
  arch : String
  modulesAPI : String
  modules : List (String × ModuleEntry)
deriving DecidableEq, Repr

/-- Settlement state of the returned promise.  pending means neither
fulfill nor reject is ever called. -/
inductive Outcome where
  | pending
  | fulfilled (r : RunResult)
  | rejected (e : String)
deriving DecidableEq, Repr

/-- Ghost trace of the observable side effects of the prelude and the
number of registry commands issued. -/
structure Trace where
  cacheInit : Bool
  backup : Option String
  destCreated : Bool
  viewCalls : Nat
  installCalls : Nat
deriving DecidableEq, Repr

/-- Trace of a run that performed none of those effects. -/
def Trace.empty : Trace := ⟨false, none, false, 0, 0⟩

/-- Full observable result of one modelled run. -/
structure InstallOut where
  outcome : Outcome
  trace : Trace
  fs : FS
  sourceModules : List String
  cleanUpDirs : List String
  fetchErrs : List String
  pubErrs : List String
  cleanErrs : List String

/-- Errors delivered by the units of one stage, in task order; units
whose callback never fired or succeeded contribute nothing. -/
def errsOf (l : List (Option (Except String String))) : List String :=
  l.filterMap (fun o =>
    match o with
    | some (.error e) => some e
    | _ => none)

/-- True when some unit of the stage never invoked its callback. -/
def hasHang (l : List (Option (Except String String))) : Bool :=
  l.any (fun o => o.isNone)

/-- One cleanup-stage task, src/index.js lines 267-284: remove the
scratch dir when it still exists, succeed silently otherwise. -/
def cleanTask (c : CleanEnv) (d : String) : Option (Except String String) :=
  if c.stillExists then
    match c.removeErr with
    | some e => some (.error e)
    | none => some (.ok ("Removed dir -> " ++ d))
  else some (.ok ("dir not found -> " ++ d))

/-- Summary of the three sequential stages. -/
structure StageSummary where
  outcome : Outcome
  fetchErrs : List String
  pubErrs : List String
  cleanErrs : List String
deriving DecidableEq, Repr

/-- Fan-in of the three stages, src/index.js lines 236-297: each stage
is fail-fast (async.eachLimit fires the final callback with the first
unit error, which rejects the promise); with no error but a unit whose
callback never fires the stage, and hence the promise, never settles;
cleanup runs only when scratch dirs were recorded; otherwise fulfill. -/
def stages3 (results : RunResult)
    (fetchRes pubRes cleanRes : List (Option (Except String String)))
    (hasCleanup : Bool) : StageSummary :=
  match errsOf fetchRes with
  | e :: rest => ⟨.rejected e, e :: rest, [], []⟩
  | [] =>
    if hasHang fetchRes then ⟨.pending, [], [], []⟩
    else
      match errsOf pubRes with
      | e :: rest => ⟨.rejected e, [], e :: rest, []⟩
      | [] =>
        if hasHang pubRes then ⟨.pending, [], [], []⟩
        else if hasCleanup then
          match errsOf cleanRes with
          | e :: rest => ⟨.rejected e, [], [], e :: rest⟩
          | [] => ⟨.fulfilled results, [], [], []⟩
        else ⟨.fulfilled results, [], [], []⟩

/-- Prelude filesystem effects of a run that found dependencies, in
source order (src/index.js lines 118-135): cache-dir initialization,
node_modules backup rename when keep is not set, and creation of an
empty node_modules when absent. -/
structure PreState where
  fs : FS
  cacheInit : Bool
  backup : Option String
  destCreated : Bool

/-- Filesystem after cache-dir initialization, src/index.js lines
118-123: mkdirs the cache root only when it does not exist yet. -/
def fs1Of (opts : Opts) (env : Env) : FS :=
  if !fsExists env.fs0 opts.cacheDir then fsMkdirs env.fs0 opts.cacheDir else env.fs0

/-- The timestamped backup name, src/index.js line 130. -/
def backupPathOf (opts : Opts) (env : Env) : String :=
  pjoin opts.dir "node_modules" ++ "." ++ toString env.now ++ ".bak"

/-- Whether the backup rename fires, src/index.js lines 129-131: keep
not requested and the destination exists. -/
def doBackupOf (opts : Opts) (env : Env) : Bool :=
  !opts.keep && fsExists (fs1Of opts env) (pjoin opts.dir "node_modules")

/-- Filesystem after the backup rename, src/index.js line 131. -/
def fs2Of (opts : Opts) (env : Env) : FS :=
  if doBackupOf opts env then
    fsRename (fs1Of opts env) (pjoin opts.dir "node_modules") (backupPathOf opts env)
  else fs1Of opts env

/-- Whether node_modules is created, src/index.js line 135. -/
def destCreateOf (opts : Opts) (env : Env) : Bool :=
  !fsExists (fs2Of opts env) (pjoin opts.dir "node_modules")

/-- The prelude of install, src/index.js lines 118-135, threading the
filesystem through cache-dir creation, the timestamped backup rename of
an existing node_modules, and the creation of a fresh node_modules. -/
def preState (opts : Opts) (env : Env) : PreState :=
  ⟨if destCreateOf opts env then
      fsMkdirs (fs2Of opts env) (pjoin opts.dir "node_modules")
    else fs2Of opts env,
    !fsExists env.fs0 opts.cacheDir,
    if doBackupOf opts env then some (backupPathOf opts env) else none,
    destCreateOf opts env⟩

/-- Embedding of install, src/index.js lines 40-299: directory check,
dependency-list loading, the empty-deps early fulfill, cache-dir
initialization, node_modules backup and creation, npm.load (whose error
path silently returns without settling the promise), then the fetch,
publish and cleanup stages. -/
def installP (opts : Opts) (env : Env) : InstallOut :=
  if !env.dirExists then
    ⟨.rejected ("Invalid directory: " ++ opts.dir), Trace.empty, env.fs0, [], [], [], [], []⟩
  else
    match depListOf opts env with
    | .error e => ⟨.rejected e, Trace.empty, env.fs0, [], [], [], [], []⟩
    | .ok deps =>
      if deps.isEmpty then
        ⟨.fulfilled ⟨env.nodeVersion, env.arch, env.modulesAPI, []⟩,
          Trace.empty, env.fs0, [], [], [], [], []⟩
      else
        let ps := preState opts env
        match env.npmLoadErr with
        | some _ =>
          ⟨.pending, ⟨ps.cacheInit, ps.backup, ps.destCreated, 0, 0⟩,
            ps.fs, [], [], [], [], []⟩
        | none =>
          let ctx : Ctx := ⟨opts.cacheDir, pjoin opts.dir "node_modules", env.arch, env.modulesAPI⟩
          let outs := deps.enum.map (fun p => processDep ctx p.2 (env.depEnv p.1))
          let sourceModules := (outs.map DepOut.sources).flatten
          let cleanUpDirs := (outs.map DepOut.cleanup).flatten
          let results : RunResult :=
            ⟨env.nodeVersion, env.arch, env.modulesAPI, outs.filterMap DepOut.modEntry⟩
          let fetchRes := outs.map DepOut.res
          let pubRes := sourceModules.enum.map (fun p =>
            copyDir (env.pubEnv p.1).srcExists (env.pubEnv p.1).dstExists
              (env.pubEnv p.1).rsyncRes p.2)
          let cleanRes := cleanUpDirs.enum.map (fun p => cleanTask (env.cleanEnv p.1) p.2)
          let s := stages3 results fetchRes pubRes cleanRes (!cleanUpDirs.isEmpty)
          ⟨s.outcome,
            ⟨ps.cacheInit, ps.backup, ps.destCreated,
              (outs.map DepOut.viewCalls).sum, (outs.map DepOut.installCalls).sum⟩,
            ps.fs, sourceModules, cleanUpDirs, s.fetchErrs, s.pubErrs, s.cleanErrs⟩

/-! Concrete inputs used by witnesses and counterexamples. -/

/-- A publish-attempt environment in which every step succeeds. -/
def matEnvOk : MatEnv := ⟨none, none, true, true, .ok "rsync -aq src/ dst/."⟩

/-- A publish-attempt environment whose rename fails cross-device. -/
def matEnvXDev : MatEnv := ⟨none, some "EXDEV", true, true, .ok "rsync -aq src/ dst/."⟩

/-- A fetch-task environment taking the exact-version fast path. -/
def depEnvFast : DepEnv := ⟨true, .error "unused", false, "tmp0", none, false, matEnvOk⟩

/-- A fetch-task environment whose registry view fails. -/
def depEnvViewErr : DepEnv := ⟨false, .error "registry down", false, "tmp0", none, false, matEnvOk⟩

/-- A publish-stage environment whose copy succeeds. -/
def pubEnvOk : PubEnv := ⟨true, true, .ok "rsync -aq src/ dst/."⟩

/-- A cleanup-stage environment whose removal succeeds. -/
def cleanEnvOk : CleanEnv := ⟨true, none⟩

/-- Run context for the concrete runs. -/
def ctxEx : Ctx := ⟨"cache", "proj/node_modules", "x64", "46"⟩

/-- Registry info for the unsatisfiable-range example of the spec. -/
def infoA : Info := ⟨⟨2, 0, 0⟩, [⟨1, 0, 0⟩, ⟨1, 2, 0⟩, ⟨2, 0, 0⟩]⟩

/-- Registry info for the race counterexample run. -/
def infoB : Info := ⟨⟨1, 2, 0⟩, [⟨1, 0, 0⟩, ⟨1, 2, 0⟩]⟩

/-- A dependency declared at an exact version. -/
def depA : Dep := ⟨"lodash", .exact ⟨1, 0, 0⟩⟩

/-- A dependency declared with a comparator range. -/
def depB : Dep := ⟨"lodash", .ge ⟨1, 0, 0⟩⟩

/-- A fetch-task environment that fetches and then finds the cache key
populated at the post-fetch defensive re-check. -/
def depEnvRace : DepEnv := ⟨false, .ok infoB, false, "tmp0", none, true, matEnvOk⟩

/-- Options declaring the single exact dependency. -/
def optsA : Opts := ⟨"proj", "cache", some [depA], false, false⟩

/-- Options declaring the single ranged dependency. -/
def optsB : Opts := ⟨"proj", "cache", some [depB], false, false⟩

/-- Options declaring an empty dependency map. -/
def optsE : Opts := ⟨"proj", "cache", some [], false, false⟩

/-- Environment for a fully cache-warm run (cache dir present,
destination absent, fast-path hit). -/
def envA : Env :=
  ⟨true, none, "v4.4.7", "x64", "46", 99, [("cache", 1)], none,
    fun _ => depEnvFast, fun _ => pubEnvOk, fun _ => cleanEnvOk⟩

/-- Environment for the race counterexample run. -/
def envB : Env :=
  ⟨true, none, "v4.4.7", "x64", "46", 99, [("cache", 1)], none,
    fun _ => depEnvRace, fun _ => pubEnvOk, fun _ => cleanEnvOk⟩

/-- Environment whose destination node_modules already exists with
content 7 before the run. -/
def envD : Env :=
  ⟨true, none, "v4.4.7", "x64", "46", 99, [("cache", 1), ("proj/node_modules", 7)], none,
    fun _ => depEnvFast, fun _ => pubEnvOk, fun _ => cleanEnvOk⟩

/-- Environment with an existing destination, used with the empty
dependency map. -/
def envE : Env :=
  ⟨true, none, "v4.4.7", "x64", "46", 99, [("proj/node_modules", 7)], none,
    fun _ => depEnvFast, fun _ => pubEnvOk, fun _ => cleanEnvOk⟩

/-- Environment whose single fetch task fails its registry view. -/
def envF : Env :=
  ⟨true, none, "v4.4.7", "x64", "46", 99, [("cache", 1)], none,
    fun _ => depEnvViewErr, fun _ => pubEnvOk, fun _ => cleanEnvOk⟩

/-- Environment whose npm.load reports an error. -/
def envG : Env :=
  ⟨true, none, "v4.4.7", "x64", "46", 99, [("cache", 1)], some "load failed",
    fun _ => depEnvFast, fun _ => pubEnvOk, fun _ => cleanEnvOk⟩

/-! Order lemmas for versions. -/

theorem vle_refl (a : Version) : vle a a = true := by
  simp [vle]

theorem vle_trans {a b c : Version} (h1 : vle a b = true) (h2 : vle b c = true) :
    vle a c = true := by
  simp [vle] at h1 h2 ⊢
  omega

theorem vle_total (a b : Version) : vle a b = true ∨ vle b a = true := by
  simp [vle]
  omega

/-! Lemmas about listMax and maxSatisfying. -/

theorem listMax_mem : ∀ {l : List Version} {m : Version}, listMax l = some m → m ∈ l := by
  intro l
  induction l with
  | nil => intro m h; simp [listMax] at h
  | cons v vs ih =>
    intro m h
    rw [listMax] at h
    cases hv : listMax vs with
    | none =>
      rw [hv] at h
      simp at h
      simp [h]
    | some w =>
      rw [hv] at h
      simp at h
      by_cases hc : vle w v = true
      · rw [if_pos hc] at h
        simp [h]
      · rw [if_neg hc] at h
        subst h
        exact List.mem_cons_of_mem _ (ih hv)

theorem listMax_none : ∀ {l : List Version}, listMax l = none → l = [] := by
  intro l h
  cases l with
  | nil => rfl
  | cons v vs =>
    rw [listMax] at h
    cases hv : listMax vs <;> rw [hv] at h <;> simp at h

theorem listMax_ge : ∀ {l : List Version} {m : Version}, listMax l = some m →
    ∀ v ∈ l, vle v m = true := by
  intro l
  induction l with
  | nil => intro m _ v hv; simp at hv
  | cons a vs ih =>
    intro m h v hv
    rw [listMax] at h
    cases hrec : listMax vs with
    | none =>
      rw [hrec] at h
      simp at h
      subst h
      have : vs = [] := listMax_none hrec
      subst this
      simp at hv
      subst hv
      exact vle_refl _
    | some w =>
      rw [hrec] at h
      simp at h
      rcases List.mem_cons.mp hv with rfl | hvs
      · by_cases hc : vle w v = true
        · rw [if_pos hc] at h; rw [← h]; exact vle_refl _
        · rw [if_neg hc] at h; rw [← h]
          rcases vle_total v w with h' | h'
          · exact h'
          · exact absurd h' hc
      · have hvw := ih hrec v hvs
        by_cases hc : vle w a = true
        · rw [if_pos hc] at h; rw [← h]; exact vle_trans hvw hc
        · rw [if_neg hc] at h; rw [← h]; exact hvw

theorem maxSatisfying_mem {vs : List Version} {p : Version → Bool} {m : Version}
    (h : maxSatisfying vs p = some m) : m ∈ vs ∧ p m = true := by
  have := listMax_mem h
  exact List.mem_filter.mp this

theorem maxSatisfying_ge {vs : List Version} {p : Version → Bool} {m : Version}
    (h : maxSatisfying vs p = some m) : ∀ v ∈ vs, p v = true → vle v m = true := by
  intro v hv hp
  exact listMax_ge h v (List.mem_filter.mpr ⟨hv, hp⟩)

theorem maxSatisfying_none {vs : List Version} {p : Version → Bool}
    (h : maxSatisfying vs p = none) : ∀ v ∈ vs, p v = false := by
  intro v hv
  have hnil : vs.filter p = [] := listMax_none h
  by_cases hp : p v = true
  · exfalso
    have : v ∈ vs.filter p := List.mem_filter.mpr ⟨hv, hp⟩
    rw [hnil] at this
    simp at this
  · simp at hp
    exact hp

/-- C3: version selection.  The wildcard and latest sentinel resolve to
the registry latest; any other range resolves to the maximum published
version that both satisfies the range and is bounded by the latest; when
no published version satisfies, resolution falls back to the latest
instead of failing, as on the unsatisfiable-range example of the spec. -/
theorem c3_version_selection (r : Range) (info : Info) :
    ((r = .wildcard ∨ r = .latestTag) → resolveVer r info = info.version) ∧
    (r ≠ .wildcard → r ≠ .latestTag →
      ((∀ v ∈ info.versions, ¬(satisfies r v = true ∧ vle v info.version = true)) →
          resolveVer r info = info.version) ∧
      ((∃ v ∈ info.versions, satisfies r v = true ∧ vle v info.version = true) →
          resolveVer r info ∈ info.versions ∧ satisfies r (resolveVer r info) = true ∧
          vle (resolveVer r info) info.version = true ∧
          ∀ v ∈ info.versions, satisfies r v = true → vle v info.version = true →
            vle v (resolveVer r info) = true)) ∧
    resolveVer (.gt ⟨3, 0, 0⟩) infoA = ⟨2, 0, 0⟩ := by
  refine ⟨?_, ?_, by decide⟩
  · rintro (rfl | rfl) <;> simp [resolveVer]
  · intro h1 h2
    have hs : ¬(r = .wildcard ∨ r = .latestTag) := by
      rintro (rfl | rfl)
      · exact h1 rfl
      · exact h2 rfl
    constructor
    · intro hnone
      rw [resolveVer, if_neg hs]
      cases hm : maxSatisfying info.versions (fun v => satisfies r v && vle v info.version) with
      | none => rfl
      | some m =>
        exfalso
        obtain ⟨hmem, hp⟩ := maxSatisfying_mem hm
        rw [Bool.and_eq_true] at hp
        exact hnone m hmem ⟨hp.1, hp.2⟩
    · rintro ⟨v, hv, hsat, hle⟩
      cases hm : maxSatisfying info.versions (fun v => satisfies r v && vle v info.version) with
      | none =>
        exfalso
        have hf := maxSatisfying_none hm v hv
        rw [hsat, hle] at hf
        simp at hf
      | some m =>
        have hres : resolveVer r info = m := by
          rw [resolveVer, if_neg hs, hm]
        obtain ⟨hmem, hp⟩ := maxSatisfying_mem hm
        rw [Bool.and_eq_true] at hp
        rw [hres]
        refine ⟨hmem, hp.1, hp.2, ?_⟩
        intro u hu hus hul
        refine maxSatisfying_ge hm u hu ?_
        rw [Bool.and_eq_true]
        exact ⟨hus, hul⟩

/-- Witness for C3: the unsatisfiable range of the spec example resolves
to the latest version, and a second unsatisfiable range also falls back
to the latest. -/
theorem c3_version_selection_witness :
    resolveVer (.gt ⟨3, 0, 0⟩) infoA = ⟨2, 0, 0⟩ ∧
    resolveVer (.gt ⟨9, 0, 0⟩) infoA = infoA.version :=
  ⟨(c3_version_selection (.gt ⟨3, 0, 0⟩) infoA).2.2,
    ((c3_version_selection (.gt ⟨9, 0, 0⟩) infoA).2.1 (by decide) (by decide)).1 (by decide)⟩

/-- C4: exact-version fast path.  When the declared range is a
syntactically valid exact version and the cache key path already exists,
the fetch task finishes successfully with the cache entry recorded and
issues no registry view and no install command. -/
theorem c4_fast_path (ctx : Ctx) (dep : Dep) (e : DepEnv) (v : Version)
    (hex : dep.ver = .exact v) (hhit : e.fastHit = true) :
    (processDep ctx dep e).res =
      some (.ok ("cacheModuleDir already there (1) -> " ++ keyPath ctx dep.name (verStr v))) ∧
    (processDep ctx dep e).sources = [keyPath ctx dep.name (verStr v)] ∧
    (processDep ctx dep e).viewCalls = 0 ∧
    (processDep ctx dep e).installCalls = 0 := by
  simp [processDep, hex, exactVer, hhit]

/-- Witness for C4 at a concrete exact dependency and warm cache. -/
theorem c4_fast_path_witness :
    depA.ver = .exact ⟨1, 0, 0⟩ ∧ depEnvFast.fastHit = true ∧
    (processDep ctxEx depA depEnvFast).res =
      some (.ok ("cacheModuleDir already there (1) -> " ++
        keyPath ctxEx depA.name (verStr ⟨1, 0, 0⟩))) ∧
    (processDep ctxEx depA depEnvFast).sources =
      [keyPath ctxEx depA.name (verStr ⟨1, 0, 0⟩)] ∧
    (processDep ctxEx depA depEnvFast).viewCalls = 0 ∧
    (processDep ctxEx depA depEnvFast).installCalls = 0 :=
  ⟨rfl, rfl, c4_fast_path ctxEx depA depEnvFast ⟨1, 0, 0⟩ rfl rfl⟩

/-- C5: two-phase materialization into the cache.  With the target
directory created and an existing source, the rename is always attempted
first; the recursive copy runs exactly when the rename fails, for any
reason; on the fallback path the source is left in place and the
callback receives the outcome of the copy, while a successful rename
removes the source. -/
theorem c5_two_phase (src dst : String) (m : MatEnv)
    (hmk : m.mkdirsErr = none) (hsrc : m.srcExistsAtCopy = true) :
    (materialize src dst m).renameAttempted = true ∧
    ((materialize src dst m).copyAttempted = true ↔ m.renameErr ≠ none) ∧
    (m.renameErr ≠ none → (materialize src dst m).srcRemains = true ∧
      (materialize src dst m).res = some m.rsyncRes) ∧
    (m.renameErr = none → (materialize src dst m).srcRemains = false ∧
      (materialize src dst m).copyAttempted = false) := by
  cases hr : m.renameErr with
  | none => simp [materialize, hmk, hr]
  | some e =>
    cases hrs : m.rsyncRes with
    | ok c => simp [materialize, copyDir, hmk, hr, hsrc, hrs]
    | error e2 => simp [materialize, copyDir, hmk, hr, hsrc, hrs]

/-- Witness for C5 at a concrete cross-device rename failure. -/
theorem c5_two_phase_witness :
    matEnvXDev.mkdirsErr = none ∧ matEnvXDev.srcExistsAtCopy = true ∧
    ((materialize "tmp0/node_modules" "cache/lodash/1.2.0/x64/46" matEnvXDev).renameAttempted = true ∧
      ((materialize "tmp0/node_modules" "cache/lodash/1.2.0/x64/46" matEnvXDev).copyAttempted = true ↔
        matEnvXDev.renameErr ≠ none) ∧
      (matEnvXDev.renameErr ≠ none →
        (materialize "tmp0/node_modules" "cache/lodash/1.2.0/x64/46" matEnvXDev).srcRemains = true ∧
        (materialize "tmp0/node_modules" "cache/lodash/1.2.0/x64/46" matEnvXDev).res =
          some matEnvXDev.rsyncRes) ∧
      (matEnvXDev.renameErr = none →
        (materialize "tmp0/node_modules" "cache/lodash/1.2.0/x64/46" matEnvXDev).srcRemains = false ∧
        (materialize "tmp0/node_modules" "cache/lodash/1.2.0/x64/46" matEnvXDev).copyAttempted = false)) :=
  ⟨rfl, rfl, c5_two_phase "tmp0/node_modules" "cache/lodash/1.2.0/x64/46" matEnvXDev rfl rfl⟩

/-- C1 counterexample: with a missing source and an existing
destination, copyDir never invokes its callback, so the operation does
not complete with a success (the claim asserts a no-op success
completion). -/
theorem c1_counterexample :
    copyDir false true (.ok "rsync -aq src/ dst/.") "cache/lodash/1.0.0/x64/46" = none := rfl

/-- C1 amended: when the source does not exist but the destination
exists, copyDir falls through both branches and never invokes its
callback at all, a silent no-op with no completion; when source and
destination are both missing it completes with the source-not-found
error. -/
theorem c1_missing_source_policy (src : String) (r : Except String String) :
    copyDir false true r src = none ∧
    copyDir false false r src =
      some (.error ("Source file not found: \"" ++ src ++ "\"")) :=
  ⟨rfl, rfl⟩

/-- Witness for the amended C1 at a concrete source path and rsync
outcome. -/
theorem c1_missing_source_policy_witness :
    copyDir false true (.ok "rsync -aq src/ dst/.") "tmp0/node_modules" = none ∧
    copyDir false false (.ok "rsync -aq src/ dst/.") "tmp0/node_modules" =
      some (.error "Source file not found: \"tmp0/node_modules\"") :=
  c1_missing_source_policy "tmp0/node_modules" (.ok "rsync -aq src/ dst/.")

/-- Fail-fast behaviour of the three-stage fan-in: whichever stage
delivers the first unit error determines the rejection, verbatim, and a
run with any unit error is never fulfilled. -/
theorem stages3_spec (results : RunResult)
    (f p c : List (Option (Except String String))) (hc : Bool) :
    (∀ e rest, (stages3 results f p c hc).fetchErrs = e :: rest →
      (stages3 results f p c hc).outcome = .rejected e) ∧
    (∀ e rest, (stages3 results f p c hc).pubErrs = e :: rest →
      (stages3 results f p c hc).outcome = .rejected e) ∧
    (∀ e rest, (stages3 results f p c hc).cleanErrs = e :: rest →
      (stages3 results f p c hc).outcome = .rejected e) ∧
    (∀ r, ((stages3 results f p c hc).fetchErrs ≠ [] ∨
        (stages3 results f p c hc).pubErrs ≠ [] ∨
        (stages3 results f p c hc).cleanErrs ≠ []) →
      (stages3 results f p c hc).outcome ≠ .fulfilled r) := by
  cases hf : errsOf f with
  | cons e rest => simp [stages3, hf]
  | nil =>
    cases hh : hasHang f with
    | true => simp [stages3, hf, hh]
    | false =>
      cases hp : errsOf p with
      | cons e rest => simp [stages3, hf, hh, hp]
      | nil =>
        cases hh2 : hasHang p with
        | true => simp [stages3, hf, hh, hp, hh2]
        | false =>
          cases hc with
          | false => simp [stages3, hf, hh, hp, hh2]
          | true =>
            cases hcl : errsOf c with
            | cons e rest => simp [stages3, hf, hh, hp, hh2, hcl]
            | nil => simp [stages3, hf, hh, hp, hh2, hcl]

/-- C6: fail-fast propagation with no partial result.  Whenever a unit
of the fetch, publish or cleanup stage fails, the first such error
rejects the promise verbatim, and the run is never fulfilled with any
(partial) RunResult. -/
theorem c6_fail_fast (opts : Opts) (env : Env) :
    (∀ e rest, (installP opts env).fetchErrs = e :: rest →
      (installP opts env).outcome = .rejected e) ∧
    (∀ e rest, (installP opts env).pubErrs = e :: rest →
      (installP opts env).outcome = .rejected e) ∧
    (∀ e rest, (installP opts env).cleanErrs = e :: rest →
      (installP opts env).outcome = .rejected e) ∧
    (∀ r, ((installP opts env).fetchErrs ≠ [] ∨ (installP opts env).pubErrs ≠ [] ∨
        (installP opts env).cleanErrs ≠ []) →
      (installP opts env).outcome ≠ .fulfilled r) := by
  cases hd : env.dirExists with
  | false => simp [installP, hd]
  | true =>
    cases hdl : depListOf opts env with
    | error e => simp [installP, hd, hdl]
    | ok deps =>
      cases deps with
      | nil => simp [installP, hd, hdl]
      | cons d ds =>
        cases hl : env.npmLoadErr with
        | some e => simp [installP, hd, hdl, hl]
        | none =>
          simp only [installP, hd, hdl, hl, Bool.not_true, Bool.false_eq_true,
            if_false, List.isEmpty_cons]
          exact stages3_spec _ _ _ _ _

/-- Witness for C6: a concrete run whose single fetch task fails its
registry view is rejected with exactly that error. -/
theorem c6_fail_fast_witness :
    (installP optsA envF).fetchErrs = "registry down" :: [] ∧
    (installP optsA envF).outcome = .rejected "registry down" :=
  ⟨rfl, (c6_fail_fast optsA envF).1 "registry down" [] rfl⟩

/-- C8: a failing npm.load leaves the promise unsettled.  When the run
reaches package-manager initialization and npm.load reports an error,
the source returns from the callback without calling fulfill or reject,
so the promise is neither fulfilled nor rejected. -/
theorem c8_load_error_never_settles (opts : Opts) (env : Env) (d : Dep) (ds : List Dep)
    (e : String) (hdir : env.dirExists = true)
    (hdeps : depListOf opts env = .ok (d :: ds))
    (hload : env.npmLoadErr = some e) :
    (installP opts env).outcome = .pending := by
  simp [installP, hdir, hdeps, hload]

/-- Witness for C8 at a concrete run whose npm.load fails. -/
theorem c8_load_error_never_settles_witness :
    envG.npmLoadErr = some "load failed" ∧ (installP optsA envG).outcome = .pending :=
  ⟨rfl, c8_load_error_never_settles optsA envG depA [] "load failed" rfl rfl rfl⟩

/-- C10: a run whose declared dependency set is empty fulfills
immediately with an empty modules mapping, touching nothing: no cache
init, no backup, no node_modules creation, no registry commands, and the
filesystem is unchanged. -/
theorem c10_empty_deps (opts : Opts) (env : Env)
    (hdir : env.dirExists = true)
    (hdeps : depListOf opts env = .ok []) :
    (installP opts env).outcome =
      .fulfilled ⟨env.nodeVersion, env.arch, env.modulesAPI, []⟩ ∧
    (installP opts env).trace = Trace.empty ∧
    (installP opts env).fs = env.fs0 := by
  simp [installP, hdir, hdeps]

/-- Witness for C10 at a concrete empty-dependency run. -/
theorem c10_empty_deps_witness :
    depListOf optsE envE = .ok [] ∧
    (installP optsE envE).outcome =
      .fulfilled ⟨envE.nodeVersion, envE.arch, envE.modulesAPI, []⟩ ∧
    (installP optsE envE).trace = Trace.empty ∧
    (installP optsE envE).fs = envE.fs0 :=
  ⟨rfl, c10_empty_deps optsE envE rfl rfl⟩

/-- Looking up a path after erasing it finds nothing. -/
theorem fsLookup_fsErase_self (fs : FS) (p : String) :
    fsLookup (fsErase fs p) p = none := by
  induction fs with
  | nil => rfl
  | cons kv fs ih =>
    obtain ⟨k, c⟩ := kv
    by_cases h : k = p
    · simp [fsErase, h, ih]
    · simp [fsErase, fsLookup, h, ih]

/-- The timestamped backup name is never the destination name itself. -/
theorem backupPath_ne (s t : String) : s ++ "." ++ t ++ ".bak" ≠ s := by
  intro h
  have hlen := congrArg String.length h
  have h1 : String.length "." = 1 := rfl
  have h2 : String.length ".bak" = 4 := rfl
  rw [String.length_append, String.length_append, String.length_append, h1, h2] at hlen
  omega

/-- Prelude effect on an existing destination when keep is not set: the
destination is renamed to the timestamped backup path, the original
content is preserved there, and a fresh destination exists afterwards. -/
theorem preState_backup (opts : Opts) (env : Env) (cont : Nat)
    (hkeep : opts.keep = false)
    (hdest : fsLookup env.fs0 (pjoin opts.dir "node_modules") = some cont) :
    (preState opts env).backup =
      some (pjoin opts.dir "node_modules" ++ "." ++ toString env.now ++ ".bak") ∧
    fsLookup (preState opts env).fs
      (pjoin opts.dir "node_modules" ++ "." ++ toString env.now ++ ".bak") = some cont ∧
    fsExists (preState opts env).fs (pjoin opts.dir "node_modules") = true := by
  have hbakne : pjoin opts.dir "node_modules" ++ "." ++ toString env.now ++ ".bak" ≠
      pjoin opts.dir "node_modules" := backupPath_ne _ _
  have hfs1 : fsLookup (fs1Of opts env) (pjoin opts.dir "node_modules") = some cont := by
    by_cases hcd : fsExists env.fs0 opts.cacheDir
    · simp [fs1Of, hcd, hdest]
    · have hne : opts.cacheDir ≠ pjoin opts.dir "node_modules" := by
        intro hcontra
        rw [fsExists, hcontra, hdest] at hcd
        simp at hcd
      simp only [fs1Of, hcd, Bool.not_false, if_true, Bool.false_eq_true, if_false]
      simp [fsMkdirs, fsLookup, hne, hdest]
  have hdb : doBackupOf opts env = true := by
    simp [doBackupOf, hkeep, fsExists, hfs1]
  have hfs2bak : fsLookup (fs2Of opts env)
      (pjoin opts.dir "node_modules" ++ "." ++ toString env.now ++ ".bak") = some cont := by
    simp [fs2Of, hdb, backupPathOf, fsRename, fsLookup, hfs1]
  have hfs2dest : fsLookup (fs2Of opts env) (pjoin opts.dir "node_modules") = none := by
    simp [fs2Of, hdb, backupPathOf, fsRename, fsLookup, hbakne, fsLookup_fsErase_self]
  have hdc : destCreateOf opts env = true := by
    simp [destCreateOf, fsExists, hfs2dest]
  have hne2 : pjoin opts.dir "node_modules" ≠
      pjoin opts.dir "node_modules" ++ "." ++ toString env.now ++ ".bak" :=
    fun h => hbakne h.symm
  refine ⟨?_, ?_, ?_⟩
  · simp [preState, hdb, backupPathOf]
  · simp [preState, hdc, fsMkdirs, fsLookup, hne2, hfs2bak]
  · simp [preState, hdc, fsMkdirs, fsExists, fsLookup]

/-- C7 counterexample: a run with an existing destination, keep not
requested, but an empty dependency set fulfills before the backup step;
nothing is renamed and the filesystem is untouched. -/
theorem c7_counterexample :
    fsExists envE.fs0 (pjoin optsE.dir "node_modules") = true ∧
    optsE.keep = false ∧
    (installP optsE envE).trace.backup = none ∧
    (installP optsE envE).fs = envE.fs0 ∧
    fsLookup (installP optsE envE).fs (pjoin optsE.dir "node_modules") = some 7 :=
  ⟨rfl, rfl, rfl, rfl, rfl⟩

/-- C7 amended: at the start of every run that declares at least one
dependency, in which an existing destination node_modules is present and
keep was not requested, that directory is renamed aside to the
timestamped backup name rather than deleted, and its prior content is
still found on disk under the backup name. -/
theorem c7_backup_rename (opts : Opts) (env : Env) (d : Dep) (ds : List Dep) (cont : Nat)
    (hdir : env.dirExists = true)
    (hdeps : depListOf opts env = .ok (d :: ds))
    (hkeep : opts.keep = false)
    (hdest : fsLookup env.fs0 (pjoin opts.dir "node_modules") = some cont) :
    (installP opts env).trace.backup =
      some (pjoin opts.dir "node_modules" ++ "." ++ toString env.now ++ ".bak") ∧
    fsLookup (installP opts env).fs
      (pjoin opts.dir "node_modules" ++ "." ++ toString env.now ++ ".bak") = some cont ∧
    fsExists (installP opts env).fs (pjoin opts.dir "node_modules") = true := by
  have h := preState_backup opts env cont hkeep hdest
  cases hl : env.npmLoadErr with
  | some e => simpa [installP, hdir, hdeps, hl] using h
  | none => simpa [installP, hdir, hdeps, hl] using h

/-- Witness for the amended C7 at a concrete run with one dependency
and an existing destination of content 7. -/
theorem c7_backup_rename_witness :
    (installP optsA envD).trace.backup = some "proj/node_modules.99.bak" ∧
    fsLookup (installP optsA envD).fs "proj/node_modules.99.bak" = some 7 ∧
    fsExists (installP optsA envD).fs "proj/node_modules" = true :=
  c7_backup_rename optsA envD depA [] 7 rfl rfl rfl rfl

/-- A publish attempt whose callback reports success always pushed the
cache path onto sourceModules. -/
theorem materialize_ok_pushed (src dst : String) (mm : MatEnv) (m : String)
    (h : (materialize src dst mm).res = some (.ok m)) :
    (materialize src dst mm).pushed = true := by
  cases hmk : mm.mkdirsErr <;>
    cases hre : mm.renameErr <;>
      cases hsr : mm.srcExistsAtCopy <;>
        cases hds : mm.dstExistsAtCopy <;>
          cases hrs : mm.rsyncRes <;>
            simp_all [materialize, copyDir]

/-- On the resolver-query path, a successfully completing task records
exactly its cache entry path, except on the post-fetch defensive
re-check path, where nothing is recorded. -/
theorem view_sources_aux (ctx : Ctx) (dep : Dep) (e : DepEnv) (m : String)
    (hfp : fastPathTaken dep e = false)
    (h : (processDepView ctx dep e).res = some (.ok m)) :
    (case3Path dep e = true ∧ (processDepView ctx dep e).sources = []) ∨
    (case3Path dep e = false ∧ ∃ p2, (processDepView ctx dep e).sources = [p2]) := by
  cases hvr : e.viewRes with
  | error err => simp [processDepView, hvr] at h
  | ok info =>
    cases hh2 : e.hit2 with
    | true =>
      refine .inr ⟨by simp [case3Path, hh2], ?_⟩
      simp [processDepView, hvr, hh2]
    | false =>
      cases hie : e.installErr with
      | some err => simp [processDepView, hvr, hh2, hie] at h
      | none =>
        cases hh3 : e.hit3 with
        | true =>
          refine .inl ⟨?_, by simp [processDepView, hvr, hh2, hie, hh3]⟩
          simp [case3Path, hfp, hvr, hh2, hie, hh3]
        | false =>
          have h' : (materialize (pjoin e.tmpDir "node_modules")
              (keyPath ctx dep.name (verStr (resolveVer dep.ver info))) e.mat).res =
              some (.ok m) := by
            simpa [processDepView, hvr, hh2, hie, hh3] using h
          have hp := materialize_ok_pushed _ _ _ _ h'
          refine .inr ⟨by simp [case3Path, hh3], ?_⟩
          simp [processDepView, hvr, hh2, hie, hh3, hp]

/-- C2 amended: every dependency whose fetch-stage task completes
successfully records its cache entry path for PublishStage, except when
the post-fetch defensive re-check finds the cache entry already
populated: that task succeeds without recording anything, so its entry
is not handed to PublishStage. -/
theorem c2_recorded_unless_race (ctx : Ctx) (dep : Dep) (e : DepEnv) (m : String)
    (h : (processDep ctx dep e).res = some (.ok m)) :
    (case3Path dep e = true ∧ (processDep ctx dep e).sources = []) ∨
    (case3Path dep e = false ∧ ∃ p2, (processDep ctx dep e).sources = [p2]) := by
  cases hev : exactVer dep.ver with
  | some v =>
    cases hfh : e.fastHit with
    | true =>
      refine .inr ⟨by simp [case3Path, fastPathTaken, hev, hfh], ?_⟩
      refine ⟨keyPath ctx dep.name (verStr v), ?_⟩
      simp [processDep, hev, hfh]
    | false =>
      have hfp : fastPathTaken dep e = false := by simp [fastPathTaken, hev, hfh]
      have h' : (processDepView ctx dep e).res = some (.ok m) := by
        simpa [processDep, hev, hfh] using h
      have hmain := view_sources_aux ctx dep e m hfp h'
      simpa [processDep, hev, hfh] using hmain
  | none =>
    have hfp : fastPathTaken dep e = false := by simp [fastPathTaken, hev]
    have h' : (processDepView ctx dep e).res = some (.ok m) := by
      simpa [processDep, hev] using h
    have hmain := view_sources_aux ctx dep e m hfp h'
    simpa [processDep, hev] using hmain

/-- Witness for the amended C2 at a concrete fast-path success. -/
theorem c2_recorded_unless_race_witness :
    (case3Path depA depEnvFast = true ∧ (processDep ctxEx depA depEnvFast).sources = []) ∨
    (case3Path depA depEnvFast = false ∧
      ∃ p2, (processDep ctxEx depA depEnvFast).sources = [p2]) :=
  c2_recorded_unless_race ctxEx depA depEnvFast
    "cacheModuleDir already there (1) -> cache/lodash/1.0.0/x64/46" rfl

/-- C2 counterexample: a concrete run whose single fetch task completes
successfully through the post-fetch defensive re-check (cache entry
populated concurrently, e.g. by another process): the task succeeds, the
run is fulfilled, but the list handed to PublishStage is empty, so that
entry is never mirror-copied into the destination. -/
theorem c2_counterexample :
    (processDep ⟨"cache", "proj/node_modules", "x64", "46"⟩ depB depEnvRace).res =
      some (.ok "cacheModuleDir already there (3) ?? -> cache/lodash/1.2.0/x64/46") ∧
    (installP optsB envB).outcome =
      .fulfilled ⟨"v4.4.7", "x64", "46",
        [("lodash", ⟨⟨1, 2, 0⟩, "proj/node_modules/lodash", infoB⟩)]⟩ ∧
    (installP optsB envB).sourceModules = [] :=
  ⟨rfl, rfl, rfl⟩

/-- The resolver-query path always issues exactly one view command. -/
theorem processDepView_viewCalls (ctx : Ctx) (dep : Dep) (e : DepEnv) :
    (processDepView ctx dep e).viewCalls = 1 := by
  cases hvr : e.viewRes <;>
    cases hh2 : e.hit2 <;>
      cases hie : e.installErr <;>
        cases hh3 : e.hit3 <;>
          simp [processDepView, hvr, hh2, hie, hh3]

/-- C9: the exact-version fast path writes no results.modules entry; a
modules entry is only ever written on the resolver-query path (where a
view command was issued); and a concrete fully cache-warm run returns an
empty modules mapping even though its package was recorded for, and
copied by, PublishStage. -/
theorem c9_fast_path_no_module_entry :
    (∀ (ctx : Ctx) (dep : Dep) (e : DepEnv) (v : Version),
      dep.ver = .exact v → e.fastHit = true → (processDep ctx dep e).modEntry = none) ∧
    (∀ (ctx : Ctx) (dep : Dep) (e : DepEnv),
      (processDep ctx dep e).modEntry.isSome = true → (processDep ctx dep e).viewCalls = 1) ∧
    ((installP optsA envA).outcome = .fulfilled ⟨"v4.4.7", "x64", "46", []⟩ ∧
      (installP optsA envA).sourceModules = ["cache/lodash/1.0.0/x64/46"]) := by
  refine ⟨?_, ?_, rfl, rfl⟩
  · intro ctx dep e v hex hhit
    simp [processDep, hex, exactVer, hhit]
  · intro ctx dep e h
    cases hev : exactVer dep.ver with
    | some v =>
      cases hfh : e.fastHit with
      | true => simp [processDep, hev, hfh] at h
      | false => simp [processDep, hev, hfh, processDepView_viewCalls]
    | none => simp [processDep, hev, processDepView_viewCalls]

/-- Witness for C9 at the concrete fast-path task. -/
theorem c9_fast_path_no_module_entry_witness :
    (processDep ctxEx depA depEnvFast).modEntry = none :=
  c9_fast_path_no_module_entry.1 ctxEx depA depEnvFast ⟨1, 0, 0⟩ rfl rfl

end NpmFastInstall
